import Mathlib

/-!
Verification development for the KEC-HUB opportunity-extraction pipeline
(`backend/app/opportunity_extractor/`).

The Python source is shallowly embedded as executable Lean definitions:

* `datetime.date` values are day ordinals (`ℤ`, Python's `date.toordinal`);
  `datetime.datetime` values are microsecond timestamps (`ℤ`).
* Python floats produced by `scoring.score` are all exact multiples of 0.1,
  so scores are carried as integer tenths (`ℤ`): the Python constant `1.2`
  is `12`, `6.0` is `60`, and so on.
* Strings are Lean `String`s; the ASCII fragment of Python's `str.lower`,
  `str.upper`, `str.strip` and of the `re` word-character class is modelled
  (`Char.toLower`, `Char.toUpper`, `String.trim`, `wordChar`).
* External library calls that the pipeline treats as black boxes
  (`urllib.parse` host extraction, `hashlib.sha1`) are abstracted as
  function parameters; HTTP responses are plain input data.
-/

namespace KecHub

/-- Microseconds per day, used to mirror `timedelta.days` (floor division). -/
def usPerDay : ℤ := 86400000000

/-- Ordinal of Python's `datetime.date.max` (9999-12-31), the sentinel the
ranking comparator substitutes for a missing deadline. -/
def dateMax : ℤ := 3652059

/-- Profile signals (`opportunity_extractor/types.py`, `ProfileSignals`). -/
structure ProfileSignals where
  email : String
  department : String
  skills : List String
  interests : List String
deriving Repr, DecidableEq

/-- Normalized opportunity record (`opportunity_extractor/types.py`,
`ExtractedOpportunity`): dates are day ordinals, timestamps microseconds,
`score` is in integer tenths of the Python float. -/
structure ExtractedOpportunity where
  id : String
  title : String
  company : String
  kind : String
  location : String
  source : String
  source_url : String
  match_method : Option String := none
  published_at : Option ℤ := none
  deadline : Option ℤ := none
  excerpt : String := ""
  tags : List String := []
  score : ℤ := 0
  reasons : List String := []
deriving Repr, DecidableEq

/-- Subset of the configuration surface (`app/settings.py`) consumed by the
opportunity pipeline. -/
structure Settings where
  opp_max_results : ℤ := 25
  opp_max_age_days : ℤ := 21
  opp_country : String := "IN"
  opp_include_remote : Bool := true
  opp_exclude_senior : Bool := true
  web_search_provider : String := "none"
  serpapi_api_key : String := ""
  google_cse_api_key : String := ""
  google_cse_cx : String := ""
  opp_web_search_allowed_domains : String := ""
deriving Repr, DecidableEq

/-! ### String helpers shared by several modules -/

/-- Python `str.lower()` (ASCII fragment), computed on the char list so
that it evaluates inside the kernel. -/
def pyLower (s : String) : String :=
  String.mk (s.toList.map Char.toLower)

/-- Python `str.upper()` (ASCII fragment). -/
def pyUpper (s : String) : String :=
  String.mk (s.toList.map Char.toUpper)

/-- Python `str.strip()` (ASCII whitespace). -/
def pyStrip (s : String) : String :=
  String.mk
    (((s.toList.dropWhile Char.isWhitespace).reverse.dropWhile Char.isWhitespace).reverse)

/-- Containment of `needle` in `hay` as char lists (Python's `in` on `str`). -/
def subList (needle : List Char) : List Char → Bool
  | [] => needle.isEmpty
  | c :: rest => needle.isPrefixOf (c :: rest) || subList needle rest

/-- Python `needle in hay` for strings. -/
def strContains (hay needle : String) : Bool :=
  subList needle.toList hay.toList

/-! ### Regex word-boundary model (`opportunity_extractor/utils.py`)

`_CLOSED_RE` and `_SENIOR_RE` are alternations of literal words wrapped in
`\b ... \b` with the `re.I` flag.  `re.search` succeeds iff some alternative
matches (case-insensitively) at some position with the two boundary
conditions satisfied; `\b` holds at a position iff exactly one of the two
surrounding characters is a word character (`[a-zA-Z0-9_]` in the ASCII
fragment), out-of-range counting as non-word.  The optional suffix in
`sr\.?` is expanded into the two literal alternatives `sr` and `sr.`. -/

/-- ASCII word character of `re`'s `\w` / `\b`. -/
def wordChar (c : Char) : Bool :=
  c.isAlpha || c.isDigit || c = '_'

/-- Word-character test at an index, out-of-range positions are non-word. -/
def wordCharAt (s : List Char) (i : ℕ) : Bool :=
  match s.get? i with
  | some c => wordChar c
  | none => false

/-- Case-insensitive match of the literal `w` at position `i` of `s`, with a
`\b` boundary on each side.  Every alternative starts with a word character,
so the left boundary demands a non-word (or absent) predecessor; the right
boundary depends on whether the alternative's last character is a word
character (it is not for the literal `sr.`). -/
def matchWordAt (s : List Char) (i : ℕ) (w : List Char) : Bool :=
  (((s.drop i).take w.length).map Char.toLower == w)
  && (i == 0 || !wordCharAt s (i - 1))
  && (match w.getLast? with
      | some c =>
        if wordChar c then
          (i + w.length == s.length || !wordCharAt s (i + w.length))
        else
          wordCharAt s (i + w.length)
      | none => true)

/-- Existence of a boundary-delimited, case-insensitive hit of one of the
literal alternatives `pats` anywhere in `text` (`bool(re.search(...))`). -/
def regexHit (pats : List String) (text : String) : Bool :=
  let s := text.toList
  pats.any fun p => (List.range (s.length + 1)).any fun i => matchWordAt s i p.toList

/-- Alternatives of `_SENIOR_RE` with `sr\.?` expanded. -/
def seniorPats : List String :=
  ["sr", "sr.", "senior", "staff", "lead", "principal", "manager", "director",
   "head", "architect"]

/-- Alternatives of `_CLOSED_RE` with `applications?` expanded. -/
def closedPats : List String :=
  ["closed", "expired", "ended", "no longer accepting", "application closed",
   "applications closed"]

/-- Translation of `utils.looks_senior`. -/
def looks_senior (title : String) : Bool :=
  regexHit seniorPats title

/-- Translation of `utils.looks_closed`. -/
def looks_closed (text : String) : Bool :=
  regexHit closedPats text

/-- Translation of `utils.is_active`: `deadline` and `today` are day
ordinals, `published_at` and `now` are microsecond timestamps, and
`(datetime.utcnow() - published_at).days` floors (`Int.fdiv`). -/
def is_active (deadline : Option ℤ) (published_at : Option ℤ)
    (max_age_days : ℤ) (today now : ℤ) : Bool :=
  match deadline with
  | some d => decide (d ≥ today)
  | none =>
    match published_at with
    | none => false
    | some p => decide ((now - p).fdiv usPerDay ≤ max_age_days)

/-! ### Scoring (`opportunity_extractor/scoring.py`) -/

/-- Characters kept by `_tokenize`'s splitting regex `[^a-z0-9+#\.]+`. -/
def allowedTokChar (c : Char) : Bool :=
  ('a' ≤ c && c ≤ 'z') || ('0' ≤ c && c ≤ '9') || c = '+' || c = '#' || c = '.'

/-- Maximal runs of allowed characters (`re.split` discards the separators);
`cur` carries the current run in reverse. -/
def tokenRuns (cur : List Char) : List Char → List (List Char)
  | [] => if cur.isEmpty then [] else [cur.reverse]
  | c :: rest =>
    if allowedTokChar c then tokenRuns (c :: cur) rest
    else if cur.isEmpty then tokenRuns [] rest
    else cur.reverse :: tokenRuns [] rest

/-- Tokens of one value: lowercase, split on `[^a-z0-9+#\.]+`, keep length
at least 2. -/
def tokensOf (v : String) : List String :=
  (tokenRuns [] (pyLower v).toList).filterMap fun t =>
    if t.length ≥ 2 then some (String.mk t) else none

/-- Translation of `scoring._tokenize` (a Python `set` of tokens). -/
def tokenSet (values : List String) : Finset String :=
  ((values.map tokensOf).flatten).toFinset

/-- Token set of title+company+location+tags (`scoring.score`, left side). -/
def titleTokens (o : ExtractedOpportunity) : Finset String :=
  tokenSet ([o.title, o.company, o.location] ++ o.tags)

/-- Token set of department+skills+interests (`scoring.score`, right side). -/
def profileTokens (p : ProfileSignals) : Finset String :=
  tokenSet ([p.department] ++ p.skills ++ p.interests)

/-- Keyword overlap of `scoring.score`. -/
def overlap (o : ExtractedOpportunity) (p : ProfileSignals) : Finset String :=
  titleTokens o ∩ profileTokens p

/-- Fresher-markers check of `scoring.score` (plain substring tests). -/
def fresherHit (o : ExtractedOpportunity) : Bool :=
  ["intern", "fresher", "graduate", "entry", "junior"].any fun w =>
    strContains (pyLower o.title) w

/-- Seniority-markers check of `scoring.score` (plain substring tests). -/
def seniorHit (o : ExtractedOpportunity) : Bool :=
  ["staff", "principal", "sr", "senior", "lead", "manager", "director"].any fun w =>
    strContains (pyLower o.title) w

/-- Matched tokens, sorted, as Python's `sorted(list(overlap))`. -/
def sortedOverlap (o : ExtractedOpportunity) (p : ProfileSignals) : List String :=
  (overlap o p).sort (· ≤ ·)

/-- Translation of `scoring.score`: returns the record with `score` and
`reasons` replaced (the Python function mutates and returns its argument).
Scores are in tenths: `1.2` is `12`, `6.0` is `60`. -/
def score (o : ExtractedOpportunity) (p : ProfileSignals) : ExtractedOpportunity :=
  let ov := overlap o p
  let s1 : ℤ := if ov = ∅ then 0 else min 60 (12 * ov.card)
  let r1 : List String :=
    if ov = ∅ then []
    else ["keyword match: " ++ String.intercalate ", " ((sortedOverlap o p).take 6)]
  let s2 : ℤ := if o.kind = "Internship" ∨ o.kind = "Hackathon" then 10 else 0
  let s3 : ℤ := if fresherHit o then 8 else 0
  let r3 : List String := if fresherHit o then ["fresher/intern friendly"] else []
  let s4 : ℤ := if seniorHit o then -15 else 0
  let r4 : List String := if seniorHit o then ["seniority down-rank"] else []
  let s5 : ℤ := if o.deadline.isSome then 10 else 0
  let r5 : List String := if o.deadline.isSome then ["has deadline"] else []
  { o with score := s1 + s2 + s3 + s4 + s5, reasons := r1 ++ r3 ++ r4 ++ r5 }

/-! ### Orchestrator (`opportunity_extractor/extractor.py`) -/

/-- Canonical dedup key: `i.source_url.strip().lower()`. -/
def canonKey (o : ExtractedOpportunity) : String :=
  pyLower (pyStrip o.source_url)

/-- Loop body of `extractor._dedupe` with its `seen` set. -/
def dedupeGo (seen : List String) : List ExtractedOpportunity → List ExtractedOpportunity
  | [] => []
  | i :: rest =>
    let k := canonKey i
    if k = "" ∨ k ∈ seen then dedupeGo seen rest
    else i :: dedupeGo (k :: seen) rest

/-- Translation of `extractor._dedupe`. -/
def dedupe (items : List ExtractedOpportunity) : List ExtractedOpportunity :=
  dedupeGo [] items

/-- India-locale token set of `extractor._location_ok`. -/
def indiaTokens : List String :=
  ["india", "tamil nadu", "kerala", "karnataka", "telangana", "andhra",
   "maharashtra", "delhi", "chennai", "coimbatore", "erode", "salem",
   "bengaluru", "bangalore", "hyderabad", "pune", "mumbai", "noida",
   "gurgaon", "kolkata", "ahmedabad", "remote", "wfh", "work from home",
   "worldwide"]

/-- Remote/WFH markers tested by `_location_ok` before rejecting remote. -/
def remoteTokens : List String :=
  ["remote", "wfh", "work from home", "worldwide"]

/-- Translation of `extractor._location_ok`. -/
def location_ok (st : Settings) (location : String) : Bool :=
  let mode := pyUpper (pyStrip (if st.opp_country = "" then "any" else st.opp_country))
  if mode = "ANY" then true
  else
    let loc := pyLower location
    if loc = "" then true
    else if indiaTokens.any (fun tok => strContains loc tok) then
      if (remoteTokens.any fun tok => strContains loc tok) && !st.opp_include_remote then
        false
      else true
    else false

/-- Remote markers of the orchestrator's final remote re-check
(`"remote" in loc or "work from home" in loc or "wfh" in loc`). -/
def remoteRecheck (location : String) : Bool :=
  let loc := pyLower location
  strContains loc "remote" || strContains loc "work from home" || strContains loc "wfh"

/-- One candidate survives the orchestrator's filter chain
(`extract_with_meta`'s `for op in combined` loop; each `continue` becomes a
`false` branch, in source order). -/
def keepCandidate (st : Settings) (today now : ℤ) (op : ExtractedOpportunity) : Bool :=
  if st.opp_exclude_senior && looks_senior op.title then false
  else if pyUpper (pyStrip st.opp_country) ≠ "ANY" && !location_ok st op.location then false
  else if looks_closed (op.title ++ " " ++ op.excerpt) then false
  else if !is_active op.deadline op.published_at st.opp_max_age_days today now then false
  else if !st.opp_include_remote && remoteRecheck op.location then false
  else true

/-- Ranking key: the Python sort key `(x.score, x.deadline or datetime.max.date())`
compared lexicographically. -/
def sKey (o : ExtractedOpportunity) : Lex (ℤ × ℤ) :=
  toLex (o.score, o.deadline.getD dateMax)

/-- Stable descending order used by `ranked.sort(key=..., reverse=True)`:
`a` may precede `b` iff `a`'s key is at least `b`'s. -/
def rankRel (a b : ExtractedOpportunity) : Prop :=
  sKey b ≤ sKey a

instance : DecidableRel rankRel := fun a b =>
  inferInstanceAs (Decidable (sKey b ≤ sKey a))

instance : IsTotal ExtractedOpportunity rankRel :=
  ⟨fun a b => le_total (sKey b) (sKey a)⟩

instance : IsTrans ExtractedOpportunity rankRel :=
  ⟨fun _ _ _ hab hbc => le_trans hbc hab⟩

/-- Python's stable descending sort of the ranked list, modelled by the
(stable) insertion sort with `rankRel`. -/
def rankSort (l : List ExtractedOpportunity) : List ExtractedOpportunity :=
  List.insertionSort rankRel l

/-- Python list slice `xs[:n]` for an `int` bound `n` (negative bounds count
from the end, clamping at zero). -/
def pyTake (n : ℤ) (l : List ExtractedOpportunity) : List ExtractedOpportunity :=
  if 0 ≤ n then l.take n.toNat else l.take ((l.length : ℤ) + n).toNat

/-- Web diagnostic bag (`{"enabled", "provider", "used", "error"}`). -/
structure WebMeta where
  enabled : Bool
  provider : Option String
  used : Bool
  error : Option String
deriving Repr, DecidableEq

/-- Diagnostics returned by the orchestrator (`{"web": web_meta}`). -/
structure ExtractMeta where
  web : WebMeta
deriving Repr, DecidableEq

/-- Dedup stage of `extract_with_meta` (`combined = _dedupe([*adzuna_ops])`). -/
def combinedStage (adzunaOps : List ExtractedOpportunity) : List ExtractedOpportunity :=
  dedupe adzunaOps

/-- Filter stage of `extract_with_meta`. -/
def filteredStage (st : Settings) (today now : ℤ)
    (adzunaOps : List ExtractedOpportunity) : List ExtractedOpportunity :=
  (combinedStage adzunaOps).filter (keepCandidate st today now)

/-- Translation of `OpportunityExtractor.extract_with_meta`, parameterized
over the list the Adzuna adapter returned and over the clock readings
(`date.today()` as a day ordinal, `datetime.utcnow()` in microseconds).
The web diagnostic is the hardcoded disabled bag of `extractor.py`. -/
def extract_with_meta (adzunaOps : List ExtractedOpportunity) (st : Settings)
    (profile : ProfileSignals) (today now : ℤ) :
    List ExtractedOpportunity × ExtractMeta :=
  let filtered := filteredStage st today now adzunaOps
  let ranked := rankSort (filtered.map (fun op => score op profile))
  (pyTake st.opp_max_results ranked, ⟨⟨false, none, false, none⟩⟩)

/-! ### Adzuna adapter fetch loop (`sources/adzuna.py`, `AdzunaIndiaSource.fetch`)

The loop is modelled from the deduplicated, capped query list onward
(`queries`, pairs of query text and provenance `"base"`/`"groq"`).  API
page responses are inputs: `pages qi page` is the `results` array of the
page request for query index `qi` (0-based) and page number `page`
(1-based), with each raw item already passed through `_to_op` (so an
unparsable item is `none`; `fetch` sets `match_method` itself).  Collected
items are tagged with their originating query index so that provenance
counts can be stated. -/

/-- Fixed per-run data of the fetch loop: page supplier, the
`results_per_page` budget (`max_total`), `per_query_cap`,
`first_groq_index`, `groq_query_available` and `base_before_groq_cap`. -/
structure AdzCfg where
  pages : ℕ → ℕ → List (Option ExtractedOpportunity)
  maxTotal : ℕ
  perQueryCap : ℕ
  fgi : Option ℕ
  groqAvail : Bool
  capBase : ℤ

/-- Mutable loop state: `collected` (with query index tags), the `seen`
URL-key set, `base_before_groq_count` and `groq_used`. -/
structure AdzState where
  collected : List (ExtractedOpportunity × ℕ)
  seen : List String
  baseCount : ℕ
  groqUsed : Bool

/-- The current item comes from a plain query positioned before the first
Groq query (the guard of the `base_before_groq` bookkeeping). -/
def preGroqBase (cfg : AdzCfg) (qi : ℕ) (method : String) : Bool :=
  decide (method = "base") &&
    (match cfg.fgi with
     | some f => decide (qi < f)
     | none => false)

/-- State update when `fetch` keeps one item: append to `collected` (with
the query-index tag), extend `seen`, and update `base_before_groq_count`
and `groq_used`. -/
def adzAddState (cfg : AdzCfg) (qi : ℕ) (method : String)
    (op : ExtractedOpportunity) (st : AdzState) : AdzState :=
  { collected := st.collected ++ [({ op with match_method := some method }, qi)]
    seen := pyLower (pyStrip op.source_url) :: st.seen
    baseCount := if preGroqBase cfg qi method then st.baseCount + 1 else st.baseCount
    groqUsed := st.groqUsed || decide (method = "groq") }

/-- Inner `for item in items` loop of `fetch`; returns the state and the
updated `added_for_query`.  Exits early on the pre-Groq base cap, on the
global budget, or on the per-query cap, exactly in source order. -/
def procItems (cfg : AdzCfg) (qi : ℕ) (method : String) :
    AdzState → ℕ → List (Option ExtractedOpportunity) → AdzState × ℕ
  | st, added, [] => (st, added)
  | st, added, none :: rest => procItems cfg qi method st added rest
  | st, added, some op :: rest =>
    if pyLower (pyStrip op.source_url) = "" ∨ pyLower (pyStrip op.source_url) ∈ st.seen then
      procItems cfg qi method st added rest
    else if preGroqBase cfg qi method && decide ((st.baseCount : ℤ) ≥ cfg.capBase) then
      (st, added)
    else if (adzAddState cfg qi method op st).collected.length ≥ cfg.maxTotal then
      (adzAddState cfg qi method op st, added + 1)
    else if added + 1 ≥ cfg.perQueryCap then
      (adzAddState cfg qi method op st, added + 1)
    else
      procItems cfg qi method (adzAddState cfg qi method op st) (added + 1) rest

/-- Page loop `for page in range(1, max_pages + 1)` of `fetch`
(`max_pages = 2`), with the empty-page stop and the post-item-loop budget
checks; `pagesLeft` counts the remaining iterations. -/
def procPages (cfg : AdzCfg) (qi : ℕ) (method : String) :
    ℕ → ℕ → AdzState → ℕ → AdzState
  | 0, _, st, _ => st
  | pl + 1, page, st, added =>
    if (cfg.pages qi page).isEmpty then st
    else if (procItems cfg qi method st added (cfg.pages qi page)).1.collected.length ≥
        cfg.maxTotal then
      (procItems cfg qi method st added (cfg.pages qi page)).1
    else if (procItems cfg qi method st added (cfg.pages qi page)).2 ≥ cfg.perQueryCap then
      (procItems cfg qi method st added (cfg.pages qi page)).1
    else
      procPages cfg qi method pl (page + 1)
        (procItems cfg qi method st added (cfg.pages qi page)).1
        (procItems cfg qi method st added (cfg.pages qi page)).2

/-- Query loop of `fetch` with the early global stop (budget reached and
either no Groq queries exist or Groq already contributed). -/
def procQueries (cfg : AdzCfg) : ℕ → AdzState → List (String × String) → AdzState
  | _, st, [] => st
  | qi, st, qm :: rest =>
    if (procPages cfg qi qm.2 2 1 st 0).collected.length ≥ cfg.maxTotal &&
        (!cfg.groqAvail || (procPages cfg qi qm.2 2 1 st 0).groqUsed) then
      procPages cfg qi qm.2 2 1 st 0
    else procQueries cfg (qi + 1) (procPages cfg qi qm.2 2 1 st 0) rest

/-- Index of the first Groq-expanded query (`first_groq_index`). -/
def firstGroqIdx (queries : List (String × String)) : Option ℕ :=
  queries.findIdx? (fun qm => qm.2 == "groq")

/-- Per-run configuration exactly as computed by `fetch`:
`per_query_cap = max(3, max_total // max(1, min(len(queries), 4)))`,
`reserve_for_groq = max(3, max_total // 3)` when a Groq query exists, and
`base_before_groq_cap = max_total - reserve_for_groq`. -/
def mkAdzCfg (queries : List (String × String))
    (pages : ℕ → ℕ → List (Option ExtractedOpportunity)) (maxTotal : ℕ) : AdzCfg :=
  let groqAvail := queries.any (fun qm => qm.2 == "groq")
  let reserve : ℤ := if groqAvail then max 3 ((maxTotal : ℤ) / 3) else 0
  { pages := pages
    maxTotal := maxTotal
    perQueryCap := max 3 (maxTotal / max 1 (min queries.length 4))
    fgi := firstGroqIdx queries
    groqAvail := groqAvail
    capBase := (maxTotal : ℤ) - reserve }

/-- Final loop state of `AdzunaIndiaSource.fetch` for a given deduplicated
query list, page supplier and `results_per_page` budget. -/
def adzunaRunState (queries : List (String × String))
    (pages : ℕ → ℕ → List (Option ExtractedOpportunity)) (maxTotal : ℕ) : AdzState :=
  procQueries (mkAdzCfg queries pages maxTotal) 0 ⟨[], [], 0, false⟩ queries

/-- Return value of `fetch`: `collected[:max_total]` without the tags. -/
def adzunaFetch (queries : List (String × String))
    (pages : ℕ → ℕ → List (Option ExtractedOpportunity)) (maxTotal : ℕ) :
    List ExtractedOpportunity :=
  ((adzunaRunState queries pages maxTotal).collected.take maxTotal).map (fun e => e.1)

/-- Number of collected items that came from plain (`"base"`) queries
positioned before the first Groq query. -/
def countPreGroqBase (fgi : Option ℕ) (entries : List (ExtractedOpportunity × ℕ)) : ℕ :=
  (entries.filter fun e =>
    decide (e.1.match_method = some "base") &&
      (match fgi with
       | some f => decide (e.2 < f)
       | none => false)).length

/-! ### Web-search adapter (`sources/web_search.py`)

`WebSearchSource.fetch` is modelled from the deduplicated, capped query
list onward (`uniq`, pairs of query text and provenance).  One provider
call is the input function `search`; `hostFn` abstracts `_host`
(`urllib.parse` hostname, lowercased), `hashFn` abstracts the sha1 hex
digest of `_hash_id`, `nowUs` is `datetime.now(timezone.utc)` in
microseconds, and `groqKeep` is the value the optional Groq link filter
returned (`none` when unconfigured or failed). -/

/-- Provider search hit (`web_search._WebResult`). -/
structure WebResult where
  title : String
  link : String
  snippet : String
  display_host : String
deriving Repr, DecidableEq

/-- An `httpx.HTTPStatusError` carrying its response status code. -/
structure HttpErr where
  status : Option ℤ
deriving Repr, DecidableEq

/-- Outcome of one `self._search(client, q)` call: a result list, an HTTP
status error, or any other exception. -/
inductive SearchOutcome where
  | ok (results : List WebResult)
  | httpErr (e : HttpErr)
  | otherErr
deriving Repr, DecidableEq

/-- Query loop of `fetch`: accumulates `(result, method)` pairs; an HTTP
status error records `first_http_error` and breaks; any other exception is
logged and skipped. -/
def webLoop (search : String → SearchOutcome) :
    List (String × String) → List (WebResult × String) × Option HttpErr
  | [] => ([], none)
  | qm :: rest =>
    match search qm.1 with
    | .httpErr e => ([], some e)
    | .otherErr => webLoop search rest
    | .ok rs =>
      let r := webLoop search rest
      (rs.map (fun x => (x, qm.2)) ++ r.1, r.2)

/-- Translation of `WebSearchSource._provider`. -/
def providerName (st : Settings) : String :=
  pyLower (pyStrip (if st.web_search_provider = "" then "none" else st.web_search_provider))

/-- Translation of `WebSearchSource._enabled`. -/
def webEnabled (st : Settings) : Bool :=
  let p := providerName st
  if p = "serpapi" then decide (pyStrip st.serpapi_api_key ≠ "")
  else if p = "google_cse" then
    decide (pyStrip st.google_cse_api_key ≠ "") && decide (pyStrip st.google_cse_cx ≠ "")
  else false

/-- Collapse whitespace runs to single spaces (`re.sub(r"\s+", " ", s)`);
`prevWs` records whether the previous character was whitespace. -/
def collapseWsGo (prevWs : Bool) : List Char → List Char
  | [] => []
  | c :: rest =>
    if c.isWhitespace then
      if prevWs then collapseWsGo true rest else ' ' :: collapseWsGo true rest
    else c :: collapseWsGo false rest

/-- Translation of `web_search._clean_text` (strip, collapse whitespace,
truncate to 500 characters). -/
def cleanText (s : String) : String :=
  (String.mk (collapseWsGo false (pyStrip s).toList)).take 500

/-- Translation of `web_search._base_domain`. -/
def baseDomain (hostname : String) : String :=
  let parts := (hostname.splitOn ".").filter (fun p => p ≠ "")
  if parts.length ≤ 2 then hostname
  else String.intercalate "." (parts.drop (parts.length - 2))

/-- Translation of `Settings.opp_web_search_allowed_domain_list`. -/
def allowedDomainList (st : Settings) : List String :=
  (st.opp_web_search_allowed_domains.splitOn ",").filterMap fun d =>
    if pyStrip d = "" then none else some (pyLower (pyStrip d))

/-- Translation of `WebSearchSource._domain_allowed`. -/
def domainAllowed (st : Settings) (hostFn : String → String) (url : String) : Bool :=
  let allow := allowedDomainList st
  if allow.isEmpty then true
  else
    let h := hostFn url
    if h = "" then false
    else allow.contains h || allow.contains (baseDomain h)

/-- Translation of `web_search._looks_like_job`. -/
def looksLikeJob (title snippet url : String) : Bool :=
  let t := pyLower (title ++ " " ++ snippet)
  if ["job alert", "salary", "glassdoor", "quora", "reddit"].any
      (fun x => strContains t x) then false
  else if ["intern", "internship", "fresher", "graduate", "entry level", "campus",
      "trainee"].any (fun k => strContains t k) then true
  else if ["software engineer", "developer", "data analyst", "data scientist",
      "ml engineer"].any (fun k => strContains t k) then true
  else
    let u := pyLower url
    ["/jobs/", "/careers/", "/career/", "greenhouse.io", "lever.co",
     "smartrecruiters.com", "workdayjobs", "myworkdayjobs"].any
      (fun p => strContains u p)

/-- Translation of `web_search._infer_kind`. -/
def inferKind (title : String) : String :=
  let t := pyLower title
  if strContains t "intern" then "Internship"
  else if ["full time", "full-time", "fte"].any (fun x => strContains t x) then "Full-time"
  else "Other"

/-- Python `str.title()` on the ASCII fragment: the first letter of every
letter run is uppercased, the rest lowercased. -/
def titleCaseGo (prevCased : Bool) : List Char → List Char
  | [] => []
  | c :: rest =>
    let c' := if c.isAlpha then (if prevCased then c.toLower else c.toUpper) else c
    c' :: titleCaseGo c.isAlpha rest

/-- Python `s.title()` (ASCII fragment). -/
def titleCase (s : String) : String :=
  String.mk (titleCaseGo false s.toList)

/-- Separator fallback of `web_search._infer_company`. -/
def sepFallback (title : String) : List String → String
  | [] => ""
  | sep :: rest =>
    if strContains title sep then
      let right := pyStrip ((title.splitOn sep).getLastD "")
      if 2 ≤ right.length ∧ right.length ≤ 60 then right else sepFallback title rest
    else sepFallback title rest

/-- Translation of `web_search._infer_company`. -/
def inferCompany (title display_host : String) : String :=
  let host := baseDomain display_host
  let guess := (host.splitOn ".").headD ""
  if host ≠ "" ∧ guess ≠ "" ∧ guess ∉ ["www", "jobs", "careers"] then
    titleCase (guess.replace "-" " ")
  else
    sepFallback title [" - ", " | ", " — ", " – "]

/-- Result cap of the keep loop
(`max(5, int(getattr(settings, "opp_max_results", 25) or 25))`). -/
def webMaxKeep (st : Settings) : ℤ :=
  max 5 (if st.opp_max_results = 0 then 25 else st.opp_max_results)

/-- Keep loop of `fetch`: URL-dedupe, domain allowlist, job-likeness
heuristic, record construction and the additive cap. -/
def keepLoop (st : Settings) (hostFn hashFn : String → String) (nowUs : ℤ) :
    List (WebResult × String) → List String → List ExtractedOpportunity →
      List ExtractedOpportunity
  | [], _, out => out
  | (r, m) :: rest, seen, out =>
    let url := pyStrip r.link
    let key := pyLower url
    if url = "" ∨ key ∈ seen then keepLoop st hostFn hashFn nowUs rest seen out
    else if !domainAllowed st hostFn url then keepLoop st hostFn hashFn nowUs rest seen out
    else if !looksLikeJob r.title r.snippet url then
      keepLoop st hostFn hashFn nowUs rest seen out
    else
      let op : ExtractedOpportunity :=
        { id := "web-" ++ hashFn url
          title := cleanText r.title
          company := cleanText (inferCompany r.title r.display_host)
          kind := inferKind r.title
          location := "India / Remote"
          source := "Web Search"
          source_url := url
          match_method := some ("web-" ++ m)
          published_at := some nowUs
          deadline := none
          excerpt := cleanText r.snippet
          tags := []
          score := 0
          reasons := [] }
      let out' := out ++ [op]
      if (out'.length : ℤ) ≥ webMaxKeep st then out'
      else keepLoop st hostFn hashFn nowUs rest (key :: seen) out'

/-- Post-loop processing of `fetch`: heuristic keep loop, then the optional
Groq keep-set applied as an intersection (Python's `if keep_urls:` skips
both `None` and an empty set). -/
def processResults (st : Settings) (hostFn hashFn : String → String) (nowUs : ℤ)
    (groqKeep : Option (List String)) (all : List (WebResult × String)) :
    List ExtractedOpportunity :=
  let out := keepLoop st hostFn hashFn nowUs all [] []
  match groqKeep with
  | some ks => if ks.isEmpty then out else out.filter (fun o => decide (o.source_url ∈ ks))
  | none => out

/-- Translation of `WebSearchSource.fetch`: empty when disabled; re-raises
the recorded HTTP error iff nothing at all was accumulated. -/
def webFetch (st : Settings) (hostFn hashFn : String → String) (nowUs : ℤ)
    (groqKeep : Option (List String)) (search : String → SearchOutcome)
    (uniq : List (String × String)) : Except HttpErr (List ExtractedOpportunity) :=
  if !webEnabled st then .ok []
  else
    match (webLoop search uniq).2 with
    | some e =>
      if (webLoop search uniq).1.isEmpty then .error e
      else .ok (processResults st hostFn hashFn nowUs groqKeep (webLoop search uniq).1)
    | none => .ok (processResults st hostFn hashFn nowUs groqKeep (webLoop search uniq).1)

/-- Python `f"status={status}"` payload (`str(None)` is `"None"`). -/
def statusStr : Option ℤ → String
  | none => "None"
  | some n => toString n

/-- Provider-specific diagnostic strings of `fetch_with_meta`'s
`httpx.HTTPStatusError` handler. -/
def providerErrMsg (provider : String) (status : Option ℤ) : String :=
  if provider = "google_cse" then
    "Google CSE request failed (status=" ++ statusStr status ++
      "). Check: Custom Search API enabled in Google Cloud, API key restrictions, correct CX, and billing/quota."
  else if provider = "serpapi" then
    "SerpAPI request failed (status=" ++ statusStr status ++
      "). Check: SERPAPI_API_KEY, plan/quota, and that the key is active."
  else
    "Web search request failed (status=" ++ statusStr status ++ ")."

/-- Translation of `WebSearchSource.fetch_with_meta`. -/
def webFetchWithMeta (st : Settings) (hostFn hashFn : String → String) (nowUs : ℤ)
    (groqKeep : Option (List String)) (search : String → SearchOutcome)
    (uniq : List (String × String)) : List ExtractedOpportunity × WebMeta :=
  let enabled := webEnabled st
  let prov := providerName st
  if !enabled then ([], ⟨enabled, some prov, false, none⟩)
  else
    match webFetch st hostFn hashFn nowUs groqKeep search uniq with
    | .ok ops => (ops, ⟨enabled, some prov, true, none⟩)
    | .error e => ([], ⟨enabled, some prov, true, some (providerErrMsg prov e.status)⟩)

/-! ### Concrete records used by counterexamples and witnesses -/

/-- Baseline opportunity record for concrete instances. -/
def sampleOp : ExtractedOpportunity :=
  { id := "op", title := "", company := "", kind := "Other", location := "",
    source := "", source_url := "" }

/-- Baseline profile for concrete instances. -/
def sampleProfile : ProfileSignals :=
  ⟨"student@example.com", "Computer Science", [], []⟩

/-- Equal-score candidate whose explicit deadline is the `date.max`
sentinel. -/
def cexSentinelOp : ExtractedOpportunity :=
  { sampleOp with id := "s", source_url := "https://x/s", deadline := some dateMax }

/-- Equal-score candidate with no deadline. -/
def cexNoDeadlineOp : ExtractedOpportunity :=
  { sampleOp with id := "n", source_url := "https://x/n", deadline := none }

/-- Record whose source URL is empty. -/
def cexBlankUrlA : ExtractedOpportunity :=
  { sampleOp with id := "a" }

/-- Record whose source URL is whitespace only (same empty canonical key). -/
def cexBlankUrlB : ExtractedOpportunity :=
  { sampleOp with id := "b", source_url := " " }

/-- Duplicate-URL pair: same canonical key `"u1"`, first record in input
order. -/
def wDupFirst : ExtractedOpportunity :=
  { sampleOp with id := "1", source_url := "U1" }

/-- Duplicate-URL pair: same canonical key `"u1"`, second record. -/
def wDupSecond : ExtractedOpportunity :=
  { sampleOp with id := "2", source_url := " u1 " }

/-- Senior-titled candidate for the filter witness. -/
def wSeniorOp : ExtractedOpportunity :=
  { sampleOp with
    title := "Senior Backend Engineer"
    source_url := "https://x/sr"
    location := "Remote" }

/-- Query list with one base query followed by one Groq query. -/
def cexQueries : List (String × String) :=
  [("software intern", "base"), ("ml intern", "groq")]

/-- Settings with the SerpAPI web-search provider configured. -/
def stSerp : Settings :=
  { web_search_provider := "serpapi", serpapi_api_key := "k" }

/-- Provider call that fails with HTTP 403 on every query. -/
def wSearchFail : String → SearchOutcome :=
  fun _ => .httpErr ⟨some 403⟩

/-- A job-looking search hit. -/
def wHit : WebResult :=
  ⟨"Software Intern", "https://example.com/jobs/1", "apply now intern", "example.com"⟩

/-- Provider call that succeeds on query `"a"` and fails with HTTP 500 on
every later query. -/
def wSearchLateFail : String → SearchOutcome :=
  fun q => if q = "a" then .ok [wHit] else .httpErr ⟨some 500⟩

/-! ## Claim theorems -/

/-- C4: `is_active` is true exactly when an explicit deadline exists and is
at least today (so deadline = today is active and deadline = yesterday is
not), or when no deadline exists but a publish timestamp does and its floor
age in days is at most `max_age_days` (so age = `max_age_days` is active
and age = `max_age_days + 1` is not); with neither field the candidate is
inactive. -/
theorem is_active_characterization (deadline published_at : Option ℤ)
    (maxAge today now : ℤ) :
    is_active deadline published_at maxAge today now = true ↔
      ((∃ d, deadline = some d ∧ today ≤ d) ∨
       (deadline = none ∧
        ∃ p, published_at = some p ∧ (now - p).fdiv usPerDay ≤ maxAge)) := by
  cases deadline with
  | some d => simp [is_active, ge_iff_le]
  | none => cases published_at <;> simp [is_active]

/-- C3: `score` sets the score to exactly
`min(6.0, |T| * 1.2) + 1.0·[kind ∈ {Internship, Hackathon}] +
0.8·[fresher marker in title] − 1.5·[seniority marker in title] +
1.0·[deadline present]` (in integer tenths), where `T` is the token-set
intersection of title+company+location+tags against
department+skills+interests, and sets the reasons to the corresponding
strings, the keyword reason listing at most 6 matched tokens in sorted
order; the fresher and seniority checks are independent. -/
theorem score_formula (o : ExtractedOpportunity) (p : ProfileSignals) :
    (score o p).score =
      min 60 (12 * (overlap o p).card)
        + (if o.kind = "Internship" ∨ o.kind = "Hackathon" then 10 else 0)
        + (if fresherHit o then 8 else 0)
        + (if seniorHit o then -15 else 0)
        + (if o.deadline.isSome then 10 else 0) ∧
    (score o p).reasons =
      (if overlap o p = ∅ then []
       else ["keyword match: " ++ String.intercalate ", " ((sortedOverlap o p).take 6)])
        ++ (if fresherHit o then ["fresher/intern friendly"] else [])
        ++ (if seniorHit o then ["seniority down-rank"] else [])
        ++ (if o.deadline.isSome then ["has deadline"] else []) := by
  refine ⟨?_, rfl⟩
  by_cases h : overlap o p = ∅
  · simp [score, h]
  · simp [score, h]

/-- C1 (read with a nonnegative result count): whenever the configured
`opp_max_results` is nonnegative, `extract_with_meta` returns at most that
many ranked opportunities, for every profile, clock and adapter output. -/
theorem budget_respected (adzunaOps : List ExtractedOpportunity) (st : Settings)
    (profile : ProfileSignals) (today now : ℤ)
    (h : 0 ≤ st.opp_max_results) :
    ((extract_with_meta adzunaOps st profile today now).1.length : ℤ) ≤
      st.opp_max_results := by
  have htake : (extract_with_meta adzunaOps st profile today now).1.length ≤
      st.opp_max_results.toNat := by
    simp only [extract_with_meta, pyTake, if_pos h]
    exact List.length_take_le st.opp_max_results.toNat _
  calc ((extract_with_meta adzunaOps st profile today now).1.length : ℤ)
      ≤ (st.opp_max_results.toNat : ℤ) := by exact_mod_cast htake
    _ = st.opp_max_results := Int.toNat_of_nonneg h

/-- C1 witness: the default configuration has budget 25 and the bound holds
at a concrete run. -/
theorem budget_respected_witness :
    0 ≤ ({} : Settings).opp_max_results ∧
      ((extract_with_meta [sampleOp] {} sampleProfile 0 0).1.length : ℤ) ≤
        ({} : Settings).opp_max_results :=
  ⟨by decide, budget_respected [sampleOp] {} sampleProfile 0 0 (by decide)⟩

/-- Every record surviving `_dedupe`'s loop has a canonical key that is
neither empty nor in the `seen` set the loop started from. -/
theorem mem_dedupeGo {o : ExtractedOpportunity} :
    ∀ {l : List ExtractedOpportunity} {seen : List String},
      o ∈ dedupeGo seen l → canonKey o ∉ seen ∧ canonKey o ≠ ""
  | [], _, h => by simp [dedupeGo] at h
  | i :: rest, seen, h => by
    by_cases hk : canonKey i = "" ∨ canonKey i ∈ seen
    · rw [dedupeGo, if_pos hk] at h
      exact mem_dedupeGo h
    · rw [dedupeGo, if_neg hk] at h
      push_neg at hk
      rcases List.mem_cons.mp h with rfl | h
      · exact ⟨hk.2, hk.1⟩
      · have := mem_dedupeGo h
        exact ⟨fun hm => this.1 (List.mem_cons_of_mem _ hm), this.2⟩

/-- `_dedupe`'s output has pairwise distinct canonical keys. -/
theorem dedupeGo_pairwise :
    ∀ (l : List ExtractedOpportunity) (seen : List String),
      (dedupeGo seen l).Pairwise (fun a b => canonKey a ≠ canonKey b)
  | [], _ => by simp [dedupeGo]
  | i :: rest, seen => by
    by_cases hk : canonKey i = "" ∨ canonKey i ∈ seen
    · rw [dedupeGo, if_pos hk]
      exact dedupeGo_pairwise rest seen
    · rw [dedupeGo, if_neg hk]
      refine List.Pairwise.cons ?_ (dedupeGo_pairwise rest _)
      intro o ho
      exact fun he => (mem_dedupeGo ho).1 (he ▸ List.mem_cons_self _ _)

/-- `_dedupe`'s loop keeps a list untouched when its keys are nonempty,
pairwise distinct and disjoint from `seen`. -/
theorem dedupeGo_of_fresh :
    ∀ (l : List ExtractedOpportunity) (seen : List String),
      (∀ o ∈ l, canonKey o ∉ seen ∧ canonKey o ≠ "") →
      l.Pairwise (fun a b => canonKey a ≠ canonKey b) →
      dedupeGo seen l = l
  | [], _, _, _ => rfl
  | i :: rest, seen, hfresh, hpw => by
    have hi := hfresh i (List.mem_cons_self _ _)
    have hcond : ¬(canonKey i = "" ∨ canonKey i ∈ seen) := by
      push_neg
      exact ⟨hi.2, hi.1⟩
    rw [dedupeGo, if_neg hcond]
    have hrest : ∀ o ∈ rest, canonKey o ∉ canonKey i :: seen ∧ canonKey o ≠ "" := by
      intro o ho
      have h1 := hfresh o (List.mem_cons_of_mem _ ho)
      have h2 := (List.pairwise_cons.mp hpw).1 o ho
      refine ⟨fun hm => ?_, h1.2⟩
      rcases List.mem_cons.mp hm with he | hm'
      · exact h2 he.symm
      · exact h1.1 hm'
    rw [dedupeGo_of_fresh rest _ hrest (List.pairwise_cons.mp hpw).2]

/-- First-wins property of `_dedupe`'s loop: for a nonempty key not yet
seen, the first input record with that key is the one (and only one) with
that key in the output. -/
theorem dedupeGo_find :
    ∀ (l : List ExtractedOpportunity) (seen : List String) (k : String),
      k ∉ seen → k ≠ "" → (∃ x ∈ l, canonKey x = k) →
      ∃ y, l.find? (fun o => decide (canonKey o = k)) = some y ∧
        y ∈ dedupeGo seen l ∧
        ∀ z ∈ dedupeGo seen l, canonKey z = k → z = y
  | [], _, _, _, _, hex => by simp at hex
  | i :: rest, seen, k, hseen, hne, hex => by
    by_cases hik : canonKey i = k
    · refine ⟨i, ?_, ?_, ?_⟩
      · simp [List.find?, hik]
      · have hcond : ¬(canonKey i = "" ∨ canonKey i ∈ seen) := by
          push_neg
          exact ⟨hik ▸ hne, hik ▸ hseen⟩
        rw [dedupeGo, if_neg hcond]
        exact List.mem_cons_self _ _
      · intro z hz hzk
        have hcond : ¬(canonKey i = "" ∨ canonKey i ∈ seen) := by
          push_neg
          exact ⟨hik ▸ hne, hik ▸ hseen⟩
        rw [dedupeGo, if_neg hcond] at hz
        rcases List.mem_cons.mp hz with rfl | hz'
        · rfl
        · exact absurd (hik ▸ hzk ▸ List.mem_cons_self (canonKey z) seen)
            (mem_dedupeGo hz').1
    · have hex' : ∃ x ∈ rest, canonKey x = k := by
        rcases hex with ⟨x, hx, hxk⟩
        rcases List.mem_cons.mp hx with rfl | hx'
        · exact absurd hxk hik
        · exact ⟨x, hx', hxk⟩
      by_cases hcond : canonKey i = "" ∨ canonKey i ∈ seen
      · rcases dedupeGo_find rest seen k hseen hne hex' with ⟨y, hf, hm, hu⟩
        refine ⟨y, ?_, ?_, ?_⟩
        · simp [List.find?, hik, hf]
        · rw [dedupeGo, if_pos hcond]
          exact hm
        · intro z hz
          rw [dedupeGo, if_pos hcond] at hz
          exact hu z hz
      · have hseen' : k ∉ canonKey i :: seen := by
          intro hm
          rcases List.mem_cons.mp hm with he | hm'
          · exact hik he.symm
          · exact hseen hm'
        rcases dedupeGo_find rest (canonKey i :: seen) k hseen' hne hex' with
          ⟨y, hf, hm, hu⟩
        refine ⟨y, ?_, ?_, ?_⟩
        · simp [List.find?, hik, hf]
        · rw [dedupeGo, if_neg hcond]
          exact List.mem_cons_of_mem _ hm
        · intro z hz hzk
          rw [dedupeGo, if_neg hcond] at hz
          rcases List.mem_cons.mp hz with rfl | hz'
          · exact absurd hzk hik
          · exact hu z hz' hzk

/-- C5 counterexample: two distinct records whose source URLs are blank
share the canonical key `""`, which occurs twice in the input, yet
`_dedupe` keeps neither of them — so the claim that "the record kept in the
output is the first one in input order" fails for this key. -/
theorem dedupe_blank_key_cex :
    canonKey cexBlankUrlA = canonKey cexBlankUrlB ∧
      cexBlankUrlA ≠ cexBlankUrlB ∧
      dedupe [cexBlankUrlA, cexBlankUrlB] = [] := by
  refine ⟨rfl, ?_, rfl⟩
  decide

/-- C5 amended: `_dedupe` is idempotent on every list, and for every
*nonempty* canonical URL key occurring in the input, the record kept in the
output is exactly the first input record with that key (records whose
canonical key is empty are dropped entirely). -/
theorem dedupe_idem_first_wins :
    (∀ l, dedupe (dedupe l) = dedupe l) ∧
    (∀ (l : List ExtractedOpportunity) (k : String), k ≠ "" →
      (∃ x ∈ l, canonKey x = k) →
      ∃ y, l.find? (fun o => decide (canonKey o = k)) = some y ∧
        y ∈ dedupe l ∧ ∀ z ∈ dedupe l, canonKey z = k → z = y) := by
  constructor
  · intro l
    refine dedupeGo_of_fresh (dedupe l) [] ?_ (dedupeGo_pairwise l [])
    intro o ho
    exact ⟨List.not_mem_nil _, (mem_dedupeGo ho).2⟩
  · intro l k hk hex
    exact dedupeGo_find l [] k (List.not_mem_nil _) hk hex

/-- C5 witness: among two records sharing the nonempty canonical key
`"u1"`, the first one is kept. -/
theorem dedupe_idem_first_wins_witness :
    ("u1" ≠ "" ∧ (∃ x ∈ [wDupFirst, wDupSecond], canonKey x = "u1")) ∧
      ∃ y, [wDupFirst, wDupSecond].find? (fun o => decide (canonKey o = "u1")) = some y ∧
        y ∈ dedupe [wDupFirst, wDupSecond] ∧
        ∀ z ∈ dedupe [wDupFirst, wDupSecond], canonKey z = "u1" → z = y :=
  ⟨⟨by decide, ⟨wDupFirst, by decide⟩⟩,
    dedupe_idem_first_wins.2 [wDupFirst, wDupSecond] "u1" (by decide)
      ⟨wDupFirst, by decide⟩⟩

/-- A nonempty canonical key forces a nonempty source URL. -/
theorem source_url_ne_of_canonKey {o : ExtractedOpportunity}
    (h : canonKey o ≠ "") : o.source_url ≠ "" := by
  intro he
  exact h (by simp [canonKey, he, pyLower, pyStrip])

/-- Scoring does not change the canonical key. -/
theorem canonKey_score (o : ExtractedOpportunity) (p : ProfileSignals) :
    canonKey (score o p) = canonKey o := rfl

/-- Python slicing keeps a sublist. -/
theorem pyTake_sublist (n : ℤ) (l : List ExtractedOpportunity) :
    (pyTake n l).Sublist l := by
  unfold pyTake
  split
  · exact List.take_sublist _ _
  · exact List.take_sublist _ _

/-- C6: every opportunity returned by `extract_with_meta` has a nonempty
source URL, and no two returned opportunities share the same lowercased,
whitespace-stripped source URL. -/
theorem output_urls_unique (adzunaOps : List ExtractedOpportunity) (st : Settings)
    (profile : ProfileSignals) (today now : ℤ) :
    (∀ o ∈ (extract_with_meta adzunaOps st profile today now).1, o.source_url ≠ "") ∧
      (extract_with_meta adzunaOps st profile today now).1.Pairwise
        (fun a b => canonKey a ≠ canonKey b) := by
  have hsymm : ∀ {a b : ExtractedOpportunity},
      canonKey a ≠ canonKey b → canonKey b ≠ canonKey a :=
    fun h he => h he.symm
  have hd_pw := dedupeGo_pairwise adzunaOps []
  have hf_pw : (filteredStage st today now adzunaOps).Pairwise
      (fun a b => canonKey a ≠ canonKey b) :=
    List.Pairwise.sublist (List.filter_sublist _) hd_pw
  have hm_pw : ((filteredStage st today now adzunaOps).map
      (fun op => score op profile)).Pairwise
      (fun a b => canonKey a ≠ canonKey b) := by
    rw [List.pairwise_map]
    simpa [canonKey_score] using hf_pw
  have hperm := List.perm_insertionSort rankRel
    ((filteredStage st today now adzunaOps).map (fun op => score op profile))
  have hs_pw : (rankSort ((filteredStage st today now adzunaOps).map
      (fun op => score op profile))).Pairwise
      (fun a b => canonKey a ≠ canonKey b) :=
    (hperm.pairwise_iff hsymm).mpr hm_pw
  constructor
  · intro o ho
    have ho' : o ∈ rankSort ((filteredStage st today now adzunaOps).map
        (fun op => score op profile)) :=
      (pyTake_sublist _ _).subset ho
    have ho'' := hperm.mem_iff.mp ho'
    rcases List.mem_map.mp ho'' with ⟨q, hq, rfl⟩
    have hmem := List.mem_of_mem_filter hq
    exact source_url_ne_of_canonKey
      (by rw [canonKey_score]; exact (mem_dedupeGo hmem).2)
  · exact List.Pairwise.sublist (pyTake_sublist _ _) hs_pw

/-- C2 counterexample: the claim says that among equal scores an item with
no deadline sorts before every item with an explicit deadline; but an
explicit deadline equal to the `date.max` sentinel produces an equal sort
key, and the stable sort keeps the input order, so the explicit-deadline
item `cexSentinelOp` stays in front of the no-deadline item
`cexNoDeadlineOp`. -/
theorem rank_sort_sentinel_cex :
    cexSentinelOp.score = cexNoDeadlineOp.score ∧
    cexSentinelOp.deadline = some dateMax ∧
    cexNoDeadlineOp.deadline = none ∧
    rankSort [cexSentinelOp, cexNoDeadlineOp] = [cexSentinelOp, cexNoDeadlineOp] := by
  refine ⟨rfl, rfl, rfl, ?_⟩
  decide

/-- C2 amended: the final ranking is a permutation of the filtered list
that is sorted in non-increasing order of the key
`(score, deadline-or-date.max)` compared lexicographically; hence scores
are non-increasing, and among equal scores deadline keys are
non-increasing (later deadlines before nearer ones, and no item with an
explicit deadline strictly before `date.max` precedes a no-deadline item);
an explicit deadline equal to `date.max` ties with missing deadlines and
input order decides. -/
theorem rank_sort_spec (l : List ExtractedOpportunity) :
    (rankSort l).Perm l ∧
      (rankSort l).Pairwise (fun a b => sKey b ≤ sKey a) := by
  refine ⟨List.perm_insertionSort rankRel l, ?_⟩
  exact List.sorted_insertionSort rankRel l

/-- C10 counterexample: with a SerpAPI key configured the web-search
adapter reports itself enabled, yet the diagnostics of
`extract_with_meta` still say the web pass was not enabled (the
orchestrator hardcodes the disabled bag). -/
theorem web_meta_cex :
    webEnabled stSerp = true ∧
      (extract_with_meta [] stSerp sampleProfile 0 0).2.web.enabled = false := by
  exact ⟨by decide, rfl⟩

/-- C10 amended: the diagnostics of `extract_with_meta` always contain the
web entry `enabled = false`, `provider = none`, `used = false`,
`error = none`, regardless of profile, configuration and adapter output:
the orchestrator deliberately disables the web-search pass and never
attempts it. -/
theorem web_meta_hardcoded (adzunaOps : List ExtractedOpportunity) (st : Settings)
    (profile : ProfileSignals) (today now : ℤ) :
    (extract_with_meta adzunaOps st profile today now).2 =
      ⟨⟨false, none, false, none⟩⟩ := rfl

/-- C7: with seniority exclusion enabled, any candidate whose title matches
the seniority regex is absent from the pipeline's filtered output, whatever
its other fields and whatever else is in the input. -/
theorem senior_filter_excludes (st : Settings) (today now : ℤ)
    (ops : List ExtractedOpportunity) (c : ExtractedOpportunity)
    (h1 : st.opp_exclude_senior = true) (h2 : looks_senior c.title = true) :
    c ∉ filteredStage st today now ops := by
  intro hmem
  have hk := (List.mem_filter.mp hmem).2
  simp [keepCandidate, h1, h2] at hk

/-- C7 witness: a concrete senior-titled candidate is excluded under the
default configuration. -/
theorem senior_filter_excludes_witness :
    ({} : Settings).opp_exclude_senior = true ∧
      looks_senior wSeniorOp.title = true ∧
      wSeniorOp ∉ filteredStage {} 0 0 [wSeniorOp] :=
  ⟨by decide, by decide,
    senior_filter_excludes {} 0 0 [wSeniorOp] wSeniorOp (by decide) (by decide)⟩

/-- Loop invariant of the Adzuna fetch: the pre-Groq base bookkeeping
counter counts exactly the collected pre-Groq base items, and it never
exceeds `max 0 base_before_groq_cap`. -/
def adzInv (cfg : AdzCfg) (st : AdzState) : Prop :=
  countPreGroqBase cfg.fgi st.collected = st.baseCount ∧
    (st.baseCount : ℤ) ≤ max 0 cfg.capBase

/-- Appending one kept item adds one to the pre-Groq base count exactly
when the item is a pre-Groq base item. -/
theorem countPreGroqBase_append (cfg : AdzCfg) (qi : ℕ) (method : String)
    (op : ExtractedOpportunity) (entries : List (ExtractedOpportunity × ℕ)) :
    countPreGroqBase cfg.fgi
        (entries ++ [({ op with match_method := some method }, qi)]) =
      countPreGroqBase cfg.fgi entries +
        (if preGroqBase cfg qi method then 1 else 0) := by
  have key : ∀ (fgi : Option ℕ),
      countPreGroqBase fgi
          (entries ++ [({ op with match_method := some method }, qi)]) =
        countPreGroqBase fgi entries +
          (if (decide (method = "base") &&
              (match fgi with
               | some f => decide (qi < f)
               | none => false)) = true then 1 else 0) := by
    intro fgi
    simp only [countPreGroqBase, List.filter_append, List.length_append]
    congr 1
    cases fgi with
    | none => simp [List.filter]
    | some f =>
      by_cases hm : method = "base" <;> by_cases hq : qi < f <;>
        simp [List.filter, hm, hq]
  exact key cfg.fgi

/-- The keep-item state update preserves the invariant when the pre-Groq
base guard allowed it. -/
theorem adzAddState_inv (cfg : AdzCfg) (qi : ℕ) (method : String)
    (op : ExtractedOpportunity) (st : AdzState)
    (hguard : ¬(preGroqBase cfg qi method &&
      decide ((st.baseCount : ℤ) ≥ cfg.capBase)) = true)
    (h : adzInv cfg st) : adzInv cfg (adzAddState cfg qi method op st) := by
  constructor
  · show countPreGroqBase cfg.fgi
        (st.collected ++ [({ op with match_method := some method }, qi)]) = _
    rw [countPreGroqBase_append cfg qi method op st.collected, h.1]
    show _ = (if preGroqBase cfg qi method then st.baseCount + 1 else st.baseCount)
    split <;> simp
  · by_cases hb : preGroqBase cfg qi method = true
    · have hlt : (st.baseCount : ℤ) < cfg.capBase := by
        by_contra hge
        exact hguard (by rw [hb, Bool.true_and, decide_eq_true_eq]; omega)
      have hcast : (((adzAddState cfg qi method op st).baseCount : ℕ) : ℤ) =
          (st.baseCount : ℤ) + 1 := by
        simp [adzAddState, hb]
      rw [hcast]
      calc (st.baseCount : ℤ) + 1 ≤ cfg.capBase := by omega
        _ ≤ max 0 cfg.capBase := le_max_right _ _
    · have hb' : preGroqBase cfg qi method = false := Bool.not_eq_true _ |>.mp hb
      have hcast : (adzAddState cfg qi method op st).baseCount = st.baseCount := by
        simp [adzAddState, hb']
      rw [hcast]
      exact h.2

/-- The item loop preserves the invariant. -/
theorem procItems_inv (cfg : AdzCfg) (qi : ℕ) (method : String) :
    ∀ (items : List (Option ExtractedOpportunity)) (st : AdzState) (added : ℕ),
      adzInv cfg st → adzInv cfg (procItems cfg qi method st added items).1
  | [], _, _, h => h
  | none :: rest, st, added, h => procItems_inv cfg qi method rest st added h
  | some op :: rest, st, added, h => by
    rw [procItems]
    split
    · exact procItems_inv cfg qi method rest st added h
    · split
      · exact h
      · rename_i hguard
        have hst' := adzAddState_inv cfg qi method op st hguard h
        split
        · exact hst'
        · split
          · exact hst'
          · exact procItems_inv cfg qi method rest _ _ hst'

/-- The page loop preserves the invariant. -/
theorem procPages_inv (cfg : AdzCfg) (qi : ℕ) (method : String) :
    ∀ (pl page : ℕ) (st : AdzState) (added : ℕ),
      adzInv cfg st → adzInv cfg (procPages cfg qi method pl page st added)
  | 0, _, _, _, h => h
  | pl + 1, page, st, added, h => by
    rw [procPages]
    have hr := procItems_inv cfg qi method (cfg.pages qi page) st added h
    split
    · exact h
    · split
      · exact hr
      · split
        · exact hr
        · exact procPages_inv cfg qi method pl (page + 1) _ _ hr

/-- The query loop preserves the invariant. -/
theorem procQueries_inv (cfg : AdzCfg) :
    ∀ (qs : List (String × String)) (qi : ℕ) (st : AdzState),
      adzInv cfg st → adzInv cfg (procQueries cfg qi st qs)
  | [], _, _, h => h
  | qm :: rest, qi, st, h => by
    rw [procQueries]
    have hp := procPages_inv cfg qi qm.2 2 1 st 0 h
    split
    · exact hp
    · exact procQueries_inv cfg rest (qi + 1) _ hp

/-- C8 counterexample: with `max_total = 1` (a reachable configuration:
`opp_max_results = 1` clamps `results_per_page` to 1) and a Groq query
present, the claimed bound `max_total − max(3, max_total div 3)` is `−2`,
which even the empty collection exceeds: the claim fails as stated. -/
theorem adzuna_cap_cex :
    ¬ ((countPreGroqBase (firstGroqIdx cexQueries)
          (adzunaRunState cexQueries (fun _ _ => []) 1).collected : ℤ) ≤
        (1 : ℤ) - max 3 ((1 : ℤ) / 3)) := by
  decide

/-- C8 amended: whenever the deduplicated query list contains a Groq query,
the number of collected items from plain queries positioned before the
first Groq query never exceeds
`max(0, max_total − max(3, max_total div 3))` (the code's negative cap is
clamped by the counter being a count). -/
theorem adzuna_pre_groq_cap (queries : List (String × String))
    (pages : ℕ → ℕ → List (Option ExtractedOpportunity)) (maxTotal : ℕ)
    (h : queries.any (fun qm => qm.2 == "groq") = true) :
    (countPreGroqBase (firstGroqIdx queries)
        (adzunaRunState queries pages maxTotal).collected : ℤ) ≤
      max 0 ((maxTotal : ℤ) - max 3 ((maxTotal : ℤ) / 3)) := by
  have hinv : adzInv (mkAdzCfg queries pages maxTotal)
      (adzunaRunState queries pages maxTotal) := by
    refine procQueries_inv _ queries 0 ⟨[], [], 0, false⟩ ?_
    exact ⟨rfl, le_max_left _ _⟩
  have hcap : (mkAdzCfg queries pages maxTotal).capBase =
      (maxTotal : ℤ) - max 3 ((maxTotal : ℤ) / 3) := by
    simp [mkAdzCfg, h]
  have hfgi : (mkAdzCfg queries pages maxTotal).fgi = firstGroqIdx queries := rfl
  calc (countPreGroqBase (firstGroqIdx queries)
        (adzunaRunState queries pages maxTotal).collected : ℤ)
      = ((adzunaRunState queries pages maxTotal).baseCount : ℤ) := by
        rw [← hfgi, hinv.1]
    _ ≤ max 0 (mkAdzCfg queries pages maxTotal).capBase := hinv.2
    _ = max 0 ((maxTotal : ℤ) - max 3 ((maxTotal : ℤ) / 3)) := by rw [hcap]

/-- C8 witness: the amended bound holds at a concrete run with a Groq
query and budget 10. -/
theorem adzuna_pre_groq_cap_witness :
    cexQueries.any (fun qm => qm.2 == "groq") = true ∧
      (countPreGroqBase (firstGroqIdx cexQueries)
          (adzunaRunState cexQueries (fun _ _ => []) 10).collected : ℤ) ≤
        max 0 ((10 : ℤ) - max 3 ((10 : ℤ) / 3)) :=
  ⟨by decide, adzuna_pre_groq_cap cexQueries (fun _ _ => []) 10 (by decide)⟩

/-- C9: an HTTP status error on the first web-search query (hence with
zero accumulated results) propagates out of `fetch` and is converted by
`fetch_with_meta` into an empty result list with the provider-specific
non-null error message, with `used = true`; whereas an HTTP status error
recorded after some results were accumulated is swallowed and `fetch`
returns the processed accumulated results without error. -/
theorem web_first_error_vs_late_error :
    (∀ (st : Settings) (hostFn hashFn : String → String) (nowUs : ℤ)
        (groqKeep : Option (List String)) (search : String → SearchOutcome)
        (q : String × String) (rest : List (String × String)) (e : HttpErr),
      webEnabled st = true →
      search q.1 = SearchOutcome.httpErr e →
      webFetch st hostFn hashFn nowUs groqKeep search (q :: rest) = .error e ∧
        (webFetchWithMeta st hostFn hashFn nowUs groqKeep search (q :: rest)).1 = [] ∧
        (webFetchWithMeta st hostFn hashFn nowUs groqKeep search (q :: rest)).2.error =
          some (providerErrMsg (providerName st) e.status) ∧
        (webFetchWithMeta st hostFn hashFn nowUs groqKeep search (q :: rest)).2.used =
          true) ∧
    (∀ (st : Settings) (hostFn hashFn : String → String) (nowUs : ℤ)
        (groqKeep : Option (List String)) (search : String → SearchOutcome)
        (uniq : List (String × String)) (e : HttpErr),
      webEnabled st = true →
      (webLoop search uniq).2 = some e →
      (webLoop search uniq).1 ≠ [] →
      webFetch st hostFn hashFn nowUs groqKeep search uniq =
        .ok (processResults st hostFn hashFn nowUs groqKeep (webLoop search uniq).1)) := by
  constructor
  · intro st hostFn hashFn nowUs groqKeep search q rest e hen hq
    have hloop : webLoop search (q :: rest) = ([], some e) := by
      rw [webLoop, hq]
    have hfetch : webFetch st hostFn hashFn nowUs groqKeep search (q :: rest) =
        .error e := by
      rw [webFetch, if_neg (by simp [hen]), hloop]
      rfl
    refine ⟨hfetch, ?_, ?_, ?_⟩ <;>
      rw [webFetchWithMeta, if_neg (by simp [hen]), hfetch]
  · intro st hostFn hashFn nowUs groqKeep search uniq e hen herr hne
    rw [webFetch, if_neg (by simp [hen]), herr]
    simp [List.isEmpty_iff, hne]

/-- C9 witness: with SerpAPI configured, a 403 on the sole query yields the
SerpAPI-specific diagnostic and no results, while a 500 on the second query
after the first succeeded is swallowed. -/
theorem web_first_error_vs_late_error_witness :
    (webEnabled stSerp = true ∧
      wSearchFail "a" = SearchOutcome.httpErr ⟨some 403⟩ ∧
      (webFetchWithMeta stSerp (fun _ => "") (fun _ => "") 0 none wSearchFail
          [("a", "base")]).2.error =
        some (providerErrMsg (providerName stSerp) (some 403))) ∧
    (webLoop wSearchLateFail [("a", "base"), ("b", "base")]).2 = some ⟨some 500⟩ ∧
      (webLoop wSearchLateFail [("a", "base"), ("b", "base")]).1 ≠ [] ∧
      webFetch stSerp (fun _ => "") (fun _ => "") 0 none wSearchLateFail
          [("a", "base"), ("b", "base")] =
        .ok (processResults stSerp (fun _ => "") (fun _ => "") 0 none
          (webLoop wSearchLateFail [("a", "base"), ("b", "base")]).1) :=
  ⟨⟨by decide, rfl,
      ((web_first_error_vs_late_error.1 stSerp (fun _ => "") (fun _ => "") 0 none
        wSearchFail ("a", "base") [] ⟨some 403⟩ (by decide) rfl).2.2.1)⟩,
    by decide, by decide,
    web_first_error_vs_late_error.2 stSerp (fun _ => "") (fun _ => "") 0 none
      wSearchLateFail [("a", "base"), ("b", "base")] ⟨some 500⟩ (by decide)
      (by decide) (by decide)⟩

end KecHub
